import Mathlib

/-!
Verification of the command-and-scheduling coordinator of the pizerow2-mesh
station (`mesh_terminal.py`), shallowly embedded in Lean 4.

Python strings are embedded as `List Char`; timestamps (Python `time.time()`
floats, whole seconds in every path the claims touch) as `Nat`; dictionaries
as association lists with replace-on-insert semantics.  Logging, console
printing and the interactive dashboard are elided: they read state but never
change the structures the claims are about.
-/

/-- Whitespace test used by the embedding of Python `str.strip` and
`str.split()` (ASCII whitespace; the texts in this system are ASCII/emoji
message payloads). -/
def isWs (c : Char) : Bool :=
  c = ' ' || c = '\t' || c = '\n' || c = '\r'

/-- Negation of `isWs`, the characters kept by whitespace collapse. -/
def notWs (c : Char) : Bool := !(isWs c)

/-- Embedding of Python `str.strip()`: drop whitespace from both ends. -/
def pyStrip (s : List Char) : List Char :=
  ((s.dropWhile isWs).reverse.dropWhile isWs).reverse

/-- Embedding of Python `str.upper()` on the ASCII range. -/
def pyUpper (s : List Char) : List Char :=
  s.map Char.toUpper

/-- Embedding of Python `str.startswith` as a prefix test on char lists. -/
def leadsWith : List Char → List Char → Bool
  | [], _ => true
  | _ :: _, [] => false
  | a :: as, b :: bs => a = b && leadsWith as bs

/-- Indices at which `pat` occurs in `s`, ascending (helper for `rfind`). -/
def occList (pat s : List Char) : List Nat :=
  (List.range (s.length + 1)).filter (fun i => leadsWith pat (s.drop i))

/-- Embedding of Python `s.rfind(pat)` for nonempty `pat`: index of the last
occurrence, `-1` when there is none. -/
def pyRfind (s pat : List Char) : Int :=
  match (occList pat s).getLast? with
  | some i => (i : Int)
  | none => -1

/-- Value of a decimal digit character, `none` otherwise. -/
def digitVal (c : Char) : Option Nat :=
  if '0' ≤ c ∧ c ≤ '9' then some (c.toNat - '0'.toNat) else none

/-- Accumulating decimal reading of a digit string; fails on a non-digit. -/
def digitsToNat : List Char → Nat → Option Nat
  | [], acc => some acc
  | c :: rest, acc =>
    match digitVal c with
    | some d => digitsToNat rest (acc * 10 + d)
    | none => none

/-- Nonempty all-digit string to its value, `none` otherwise. -/
def decDigits (cs : List Char) : Option Nat :=
  if cs = [] then none else digitsToNat cs 0

/-- Embedding of Python `int(s)` on the forms this program can meet:
surrounding whitespace, an optional sign, then decimal digits (the underscore
digit-group syntax and non-ASCII digits are not modelled). `none` is the
`ValueError` outcome. -/
def pyInt (s : List Char) : Option Int :=
  match pyStrip s with
  | '+' :: rest => (decDigits rest).map (fun n => (n : Int))
  | '-' :: rest => (decDigits rest).map (fun n => -(n : Int))
  | rest => (decDigits rest).map (fun n => (n : Int))

/-- Embedding of Python `str.split()`: maximal runs of non-whitespace, in
order, with no empty words (helper carrying the reversed current word). -/
def wordsGo (cur : List Char) : List Char → List (List Char)
  | [] => if cur = [] then [] else [cur.reverse]
  | c :: rest =>
    if isWs c then
      if cur = [] then wordsGo [] rest else cur.reverse :: wordsGo [] rest
    else wordsGo (c :: cur) rest

/-- Words of a text in order, Python `str.split()` semantics. -/
def pyWords (s : List Char) : List (List Char) :=
  wordsGo [] s

/-- The pattern sought first by the chunker: sentence end, period form. -/
def dotSpace : List Char := ['.', ' ']

/-- Sentence end, exclamation form. -/
def bangSpace : List Char := ['!', ' ']

/-- Sentence end, question form. -/
def questSpace : List Char := ['?', ' ']

/-- Split point chosen by `split_message` inside one prefix `chunk` of length
at most `maxLength` (from `mesh_terminal.py` lines 802-817): the last sentence
terminator if it lies past the midpoint (`last_period > max_length * 0.5`,
rendered exactly as `maxLength < 2 * lastPeriod` over integers), else the last
space if positive, else a hard cut at `maxLength`. -/
def computeSplitPoint (chunk : List Char) (maxLength : Nat) : Nat :=
  if (maxLength : Int) <
      2 * max (pyRfind chunk dotSpace) (max (pyRfind chunk bangSpace) (pyRfind chunk questSpace)) then
    (max (pyRfind chunk dotSpace) (max (pyRfind chunk bangSpace) (pyRfind chunk questSpace))).toNat + 2
  else if 0 < pyRfind chunk [' '] then (pyRfind chunk [' ']).toNat + 1
  else maxLength

/-- Loop of `split_message` (`mesh_terminal.py` lines 797-821).  Each pass
takes the prefix of length `maxLength`, picks a split point, emits the
stripped head and continues on the stripped tail.  A fuel parameter bounds
the iteration count so the recursion is structural: `split_message` passes
the text's length, which is never exhausted when `max_length ≥ 1` because
each pass strictly shortens the remainder (the source loops forever when
`max_length = 0`; there the fuel runs out and yields `[]`). -/
def splitMessageGo (maxLength : Nat) : Nat → List Char → List (List Char)
  | _, [] => []
  | 0, _ :: _ => []
  | fuel + 1, remaining@(_ :: _) =>
    if remaining.length ≤ maxLength then [remaining]
    else
      pyStrip (remaining.take (computeSplitPoint (remaining.take maxLength) maxLength)) ::
        splitMessageGo maxLength fuel
          (pyStrip (remaining.drop (computeSplitPoint (remaining.take maxLength) maxLength)))

/-- Embedding of `MeshtasticTerminal.split_message` (`mesh_terminal.py`
lines 779-822): a text at most `max_length` long is returned whole, otherwise
the loop above chunks it. -/
def split_message (text : List Char) (maxLength : Nat) : List (List Char) :=
  if text.length ≤ maxLength then [text] else splitMessageGo maxLength text.length text

/-- Entry of `self.rate_limit_tracker` (`mesh_terminal.py` line 79 and
lines 514-519): a per-peer message count and the end of its fixed window. -/
structure RateEntry where
  count : Nat
  resetTime : Nat
deriving DecidableEq

/-- Latest delivery status per peer, the `ack_status` field of
`self.message_acks` entries: `'PENDING'`, `'ACK'` or `'NAK:<reason>'`. -/
inductive AckStatus where
  | pending
  | ack
  | nak (reason : List Char)
deriving DecidableEq

/-- Entry of `self.message_acks` (`mesh_terminal.py` line 58): the latest
status and the `last_ack_time` timestamp it was written at (`timestamp`, a
rendered wall-clock string, is elided). -/
structure AckEntry where
  lastAckTime : Nat
  status : AckStatus
deriving DecidableEq

/-- Lookup in a Python-dict embedding (association list, first match). -/
def alistLookup {β : Type} : List (List Char × β) → List Char → Option β
  | [], _ => none
  | (k, v) :: rest, p => if k = p then some v else alistLookup rest p

/-- Insert into a Python-dict embedding: replace the existing binding, else
append. -/
def alistInsert {β : Type} : List (List Char × β) → List Char → β → List (List Char × β)
  | [], p, e => [(p, e)]
  | (k, v) :: rest, p, e =>
    if k = p then (k, e) :: rest else (k, v) :: alistInsert rest p e

/-- Shared mutable state of `MeshtasticTerminal` restricted to the fields the
coordinator claims touch (`__init__`, `mesh_terminal.py` lines 33-79; the
chatbot object is flattened into its observable flags; node tables,
conversation logs and display buffers are elided — no claim reads them). -/
structure TermState where
  connected : Bool
  hasInterface : Bool
  auto_send_enabled : Bool
  auto_send_paused : Bool
  auto_send_interval : Nat
  selected_nodes : List (List Char)
  last_send_time : Nat
  chatbot_present : Bool
  chatbot_available : Bool
  chatbot_model_exists : Bool
  chatbot_loaded : Bool
  chatbot_enabled : Bool
  rate_limit_tracker : List (List Char × RateEntry)
  message_acks : List (List Char × AckEntry)
deriving DecidableEq

/-- External collaborator data read during one command (signal tables,
rendered telemetry, the model loader's outcome, the chatbot greeting). -/
structure Env where
  radiocheckMsg : Option (List Char)
  telemetryMsg : List Char
  loadSucceeds : Bool
  greeting : List Char
deriving DecidableEq

/-- Observable actions the handler performs, in program order.  The source
performs every one of these synchronously on the inbound-message thread;
`spawnWorker` (hand-off of work to an independent worker thread) is never
emitted by any embedded path — the constructor exists so its absence is a
statable fact. -/
inductive Effect where
  | sendText (dest msg : List Char)
  | loadModel
  | unloadModel
  | saveConfig
  | spawnWorker
deriving DecidableEq

/-- Keyword constants of `on_receive` (`mesh_terminal.py` line 404). -/
def kwSTOP : List Char := ['S', 'T', 'O', 'P']

/-- Keyword START. -/
def kwSTART : List Char := ['S', 'T', 'A', 'R', 'T']

/-- Keyword RADIOCHECK. -/
def kwRADIOCHECK : List Char := ['R', 'A', 'D', 'I', 'O', 'C', 'H', 'E', 'C', 'K']

/-- Keyword WEATHERCHECK. -/
def kwWEATHERCHECK : List Char := ['W', 'E', 'A', 'T', 'H', 'E', 'R', 'C', 'H', 'E', 'C', 'K']

/-- Keyword KEYWORDS. -/
def kwKEYWORDS : List Char := ['K', 'E', 'Y', 'W', 'O', 'R', 'D', 'S']

/-- Keyword CHATBOTON (the spec's RESPONDERON). -/
def kwCHATBOTON : List Char := ['C', 'H', 'A', 'T', 'B', 'O', 'T', 'O', 'N']

/-- Keyword CHATBOTOFF (the spec's RESPONDEROFF). -/
def kwCHATBOTOFF : List Char := ['C', 'H', 'A', 'T', 'B', 'O', 'T', 'O', 'F', 'F']

/-- The FREQ command stem. -/
def kwFREQ : List Char := ['F', 'R', 'E', 'Q']

/-- The `keyword_list` of `on_receive` (`mesh_terminal.py` line 404). -/
def keyword_list : List (List Char) :=
  [kwSTOP, kwSTART, kwRADIOCHECK, kwWEATHERCHECK, kwKEYWORDS, kwCHATBOTON, kwCHATBOTOFF]

/-- The keyword test of `on_receive` (`mesh_terminal.py` line 405):
`any(text_upper == kw or text_upper.startswith('FREQ') for kw in keyword_list)`. -/
def is_keyword (textUpper : List Char) : Bool :=
  keyword_list.any (fun kw => decide (textUpper = kw) || decide (textUpper.take 4 = kwFREQ))

/-- Embedding of `check_rate_limit` (`mesh_terminal.py` lines 503-538): a
missing tracker entry is created with a fresh 3600-second window, an expired
window resets atomically, a count at the 50-message cap denies, otherwise the
count increments and the call allows. -/
def check_rate_limit (tracker : List (List Char × RateEntry)) (nodeId : List Char)
    (now : Nat) : Bool × List (List Char × RateEntry) :=
  let e0 : RateEntry :=
    match alistLookup tracker nodeId with
    | none => { count := 0, resetTime := now + 3600 }
    | some e => e
  let e1 : RateEntry :=
    if e0.resetTime ≤ now then { count := 0, resetTime := now + 3600 } else e0
  if 50 ≤ e1.count then (false, alistInsert tracker nodeId e1)
  else (true, alistInsert tracker nodeId { e1 with count := e1.count + 1 })

/-- Reply string literals of `process_keyword_command`. -/
def msgStopped : List Char := "✅ AUTO-SEND STOPPED".toList

/-- Reply to START. -/
def msgStarted : List Char := "✅ AUTO-SEND STARTED".toList

/-- Reply to an out-of-range FREQ value. -/
def msgFreqRange : List Char := "❌ FREQ must be 30-3600 seconds".toList

/-- Reply to an unparseable FREQ value. -/
def msgFreqInvalid : List Char := "❌ Invalid FREQ format. Use FREQ## (e.g., FREQ60)".toList

/-- Confirmation reply to an accepted FREQ value, naming the prior value. -/
def freqSetMsg (newFreq oldFreq : Nat) : List Char :=
  "✅ FREQ set to ".toList ++ (toString newFreq).toList ++ "s (was ".toList
    ++ (toString oldFreq).toList ++ "s)".toList

/-- RADIOCHECK reply when no signal data is on hand. -/
def msgNoSignal : List Char := "📡 RADIOCHECK: No recent signal data available".toList

/-- The sentinel `get_telemetry_message` returns with no data. -/
def msgNoTelemetry : List Char := "No telemetry data available".toList

/-- WEATHERCHECK reply leader. -/
def weatherPre : List Char := "🌡️  WEATHERCHECK: ".toList

/-- WEATHERCHECK reply when no telemetry is on hand. -/
def msgWeatherNoData : List Char := "🌡️  WEATHERCHECK: No telemetry data available".toList

/-- KEYWORDS reply, listing the chatbot toggles only when one is present. -/
def keywordsMsg (botAvail : Bool) : List Char :=
  "📋 Available: STOP START FREQ### RADIOCHECK WEATHERCHECK KEYWORDS ".toList
    ++ (if botAvail then "CHATBOTON CHATBOTOFF".toList else [])

/-- CHATBOTON reply when the chatbot library is absent. -/
def msgBotUnavailable : List Char := "❌ ChatBot not available (install llama-cpp-python)".toList

/-- CHATBOTON reply when the model file is missing. -/
def msgBotNoModel : List Char := "❌ ChatBot model not found".toList

/-- CHATBOTON reply when already enabled and loaded. -/
def msgBotAlready : List Char := "⚠️  ChatBot already enabled".toList

/-- CHATBOTON success reply. -/
def msgBotEnabled : List Char := "✅ CHATBOT ENABLED".toList

/-- CHATBOTON reply when the load fails. -/
def msgBotLoadFailed : List Char := "❌ Failed to load chatbot model".toList

/-- CHATBOTOFF reply when no chatbot object exists. -/
def msgBotGone : List Char := "❌ ChatBot not available".toList

/-- CHATBOTOFF reply when already disabled. -/
def msgBotAlreadyOff : List Char := "⚠️  ChatBot already disabled".toList

/-- CHATBOTOFF success reply. -/
def msgBotDisabled : List Char := "✅ CHATBOT DISABLED".toList

/-- The commands the elif chain of `process_keyword_command` distinguishes. -/
inductive Cmd where
  | stop
  | start
  | freq (suffix : List Char)
  | radiocheck
  | weathercheck
  | keywords
  | chatbotOn
  | chatbotOff
  | other
deriving DecidableEq

/-- The branch tests of the elif chain of `process_keyword_command`
(`mesh_terminal.py` lines 545, 551, 557, 575, 592, 604, 611, 636), in source
order: literal keyword equality, with FREQ tested as the stem plus a
nonempty remainder (`text.startswith('FREQ') and len(text) > 4`).  Factored
out of `pkc_core` so each branch's effect can be reasoned about separately;
the composite is exactly the source's chain. -/
def classifyCmd (text : List Char) : Cmd :=
  if text = kwSTOP then Cmd.stop
  else if text = kwSTART then Cmd.start
  else if text.take 4 = kwFREQ ∧ 4 < text.length then Cmd.freq (text.drop 4)
  else if text = kwRADIOCHECK then Cmd.radiocheck
  else if text = kwWEATHERCHECK then Cmd.weathercheck
  else if text = kwKEYWORDS then Cmd.keywords
  else if text = kwCHATBOTON then Cmd.chatbotOn
  else if text = kwCHATBOTOFF then Cmd.chatbotOff
  else Cmd.other

/-- Dispatch stage of `process_keyword_command` (`mesh_terminal.py` lines
540-651), invoked with the normalized text of a keyword message from a
trusted peer.  Returns the mutated state, the ordered effects of the
synchronous call so far, and the `reply_message` to send.  Logging, `print`,
the activity feed and the conversation append are elided; `save_config` is
the `saveConfig` effect; the chatbot's `load_model`/`unload_model` calls are
the (blocking) `loadModel`/`unloadModel` effects, with `Env.loadSucceeds`
the load outcome and `is_loaded` tracked by `chatbot_loaded`. -/
def pkc_branch (env : Env) (st : TermState) (fromId : List Char) :
    Cmd → TermState × List Effect × Option (List Char)
  | Cmd.stop => ({ st with auto_send_paused := true }, [], some msgStopped)
  | Cmd.start => ({ st with auto_send_paused := false }, [], some msgStarted)
  | Cmd.freq suffix =>
    match pyInt suffix with
    | some n =>
      if 30 ≤ n ∧ n ≤ 3600 then
        ({ st with auto_send_interval := n.toNat }, [Effect.saveConfig],
          some (freqSetMsg n.toNat st.auto_send_interval))
      else (st, [], some msgFreqRange)
    | none => (st, [], some msgFreqInvalid)
  | Cmd.radiocheck =>
    match env.radiocheckMsg with
    | some m => (st, [], some m)
    | none => (st, [], some msgNoSignal)
  | Cmd.weathercheck =>
    if env.telemetryMsg ≠ [] ∧ env.telemetryMsg ≠ msgNoTelemetry then
      (st, [], some (weatherPre ++ env.telemetryMsg))
    else (st, [], some msgWeatherNoData)
  | Cmd.keywords =>
    (st, [], some (keywordsMsg (st.chatbot_present && st.chatbot_available)))
  | Cmd.chatbotOn =>
    if ¬ (st.chatbot_present = true ∧ st.chatbot_available = true) then
      (st, [], some msgBotUnavailable)
    else if st.chatbot_model_exists = false then
      (st, [], some msgBotNoModel)
    else if st.chatbot_enabled = true ∧ st.chatbot_loaded = true then
      (st, [], some msgBotAlready)
    else if env.loadSucceeds then
      ({ st with chatbot_enabled := true, chatbot_loaded := true },
        [Effect.loadModel, Effect.saveConfig, Effect.sendText fromId env.greeting],
        some msgBotEnabled)
    else (st, [Effect.loadModel], some msgBotLoadFailed)
  | Cmd.chatbotOff =>
    if st.chatbot_present = false then (st, [], some msgBotGone)
    else if st.chatbot_enabled = false then (st, [], some msgBotAlreadyOff)
    else
      ({ st with chatbot_enabled := false, chatbot_loaded := false },
        [Effect.unloadModel, Effect.saveConfig], some msgBotDisabled)
  | Cmd.other => (st, [], none)

/-- The dispatch stage assembled: classify the normalized text, then run the
branch, as the source's elif chain does in place. -/
def pkc_core (env : Env) (st : TermState) (text fromId : List Char) :
    TermState × List Effect × Option (List Char) :=
  pkc_branch env st fromId (classifyCmd text)

/-- Reply stage of `process_keyword_command` (`mesh_terminal.py` lines
653-672): when the dispatch above produced a reply and an interface exists,
the auto-reply transmission is the final effect of the synchronous call. -/
def process_keyword_command (env : Env) (st : TermState) (text fromId : List Char) :
    TermState × List Effect :=
  match pkc_core env st text fromId with
  | (st', effs, some reply) =>
    if st'.hasInterface then (st', effs ++ [Effect.sendText fromId reply])
    else (st', effs)
  | (st', effs, none) => (st', effs)

/-- Embedding of `handle_routing_response` (`mesh_terminal.py` lines
677-705): a ROUTING_APP packet from `fromId` (already rendered to node-id
form) with `errorReason` overwrites that peer's latest delivery status —
`'NONE'` becomes an ACK, anything else a NAK — with no correlation to any
particular send. -/
def handle_routing_response (st : TermState) (fromId errorReason : List Char)
    (now : Nat) : TermState :=
  { st with
    message_acks := alistInsert st.message_acks fromId
      { lastAckTime := now,
        status := if errorReason = "NONE".toList then AckStatus.ack
          else AckStatus.nak errorReason } }

/-- Per-peer loop body of `send_telemetry` (`mesh_terminal.py` lines
954-980): each target peer's ack slot is overwritten with a Pending entry
stamped by that iteration's `time.time()` call, taken from the abstract
clock `clk` at the iteration's index. -/
def setPendingAcks (acks : List (List Char × AckEntry)) (peers : List (List Char))
    (clk : Nat → Nat) (i : Nat) : List (List Char × AckEntry) :=
  match peers with
  | [] => acks
  | p :: ps =>
    setPendingAcks (alistInsert acks p { lastAckTime := clk i, status := AckStatus.pending })
      ps clk (i + 1)

/-- Embedding of `send_telemetry` (`mesh_terminal.py` lines 929-990) on its
success path.  `clk i` is the value of the i-th `time.time()` call that is
stored: one per target peer for its Pending stamp, then one more after the
loop — line 982 `self.last_send_time = time.time()` — so the recorded
`last_send_time` is `clk` at index `selected_nodes.length`, the batch's
completion.  Guards: no connection or no interface, or an empty target set,
fail without touching state.  Message rendering, transmission and logging
are elided; the per-send exception path (which skips the final
`last_send_time` update) is not modelled — the claims address completed
batches. -/
def send_telemetry (st : TermState) (clk : Nat → Nat) : TermState × Bool :=
  if ¬ (st.connected = true ∧ st.hasInterface = true) then (st, false)
  else if st.selected_nodes = [] then (st, false)
  else
    ({ st with
        message_acks := setPendingAcks st.message_acks st.selected_nodes clk 0,
        last_send_time := clk st.selected_nodes.length }, true)

/-- Routing outcome of one inbound text message. -/
inductive RxPath where
  | command
  | chatbot
  | rateLimited
  | logOnly
deriving DecidableEq

/-- Embedding of the TEXT_MESSAGE_APP branch of `on_receive`
(`mesh_terminal.py` lines 397-495): normalize (`text.strip().upper()`), test
the keyword set; a keyword from a selected (trusted) node runs
`process_keyword_command`; a non-keyword with the chatbot enabled and loaded
goes to the responder, rate-limited first when the sender is not selected
(a denial sends one notice and returns early); everything else — including
keyword-looking text from an unselected peer — is only stored in the
message log.  The stored conversation entry itself is elided. -/
def route_text (env : Env) (st : TermState) (fromId text : List Char) (now : Nat) :
    RxPath × TermState :=
  if is_keyword (pyUpper (pyStrip text)) = true ∧ fromId ∈ st.selected_nodes then
    (RxPath.command, (process_keyword_command env st (pyUpper (pyStrip text)) fromId).1)
  else if is_keyword (pyUpper (pyStrip text)) = false ∧ st.chatbot_enabled = true
      ∧ st.chatbot_present = true ∧ st.chatbot_loaded = true then
    if fromId ∉ st.selected_nodes then
      match check_rate_limit st.rate_limit_tracker fromId now with
      | (false, tr) => (RxPath.rateLimited, { st with rate_limit_tracker := tr })
      | (true, tr) => (RxPath.chatbot, { st with rate_limit_tracker := tr })
    else (RxPath.chatbot, st)
  else (RxPath.logOnly, st)

/-- Embedding of menu option 2 of `configure_auto_send` (`mesh_terminal.py`
lines 1861-1875): parse the entered interval; any parsed value of at least
30 is stored — there is no upper check — and a parse failure or a value
below 30 changes nothing. -/
def configure_interval (st : TermState) (input : List Char) : TermState :=
  match pyInt input with
  | some n => if 30 ≤ n then { st with auto_send_interval := n.toNat } else st
  | none => st

/-- The due test of `auto_send_worker` (`mesh_terminal.py` lines 1267-1276):
enabled, connected, not paused, and at least `auto_send_interval` seconds
since `last_send_time` (timestamps as whole seconds; a backwards clock
truncates at zero like Python's negative elapsed, never due for the positive
intervals every modelled path maintains). -/
def tick_due (st : TermState) (now : Nat) : Bool :=
  st.auto_send_enabled && st.connected && !st.auto_send_paused
    && decide (st.auto_send_interval ≤ now - st.last_send_time)

/-- One concurrent occurrence the coordinator reacts to: an inbound text
message, or one pass of the auto-send worker's 1-second tick (carrying the
abstract clock the send batch would read). -/
inductive Ev where
  | msg (fromId text : List Char) (now : Nat)
  | tick (now : Nat) (clk : Nat → Nat)

/-- One event step: a message routes through `route_text` (a rate-limit
denial sends exactly one notice, `mesh_terminal.py` line 418); a due tick
runs `send_telemetry`.  Returns the new state, the telemetry batches sent
and the rate-limit notices sent. -/
def step_ev (env : Env) (st : TermState) : Ev → TermState × Nat × Nat
  | Ev.msg fromId text now =>
    match route_text env st fromId text now with
    | (RxPath.rateLimited, st') => (st', 0, 1)
    | (_, st') => (st', 0, 0)
  | Ev.tick now clk =>
    if tick_due st now then
      match send_telemetry st clk with
      | (st', true) => (st', 1, 0)
      | (st', false) => (st', 0, 0)
    else (st, 0, 0)

/-- Run a sequence of events, accumulating telemetry batches and notices. -/
def run_events (env : Env) (st : TermState) : List Ev → TermState × Nat × Nat
  | [] => (st, 0, 0)
  | e :: es =>
    ((run_events env (step_ev env st e).1 es).1,
      (step_ev env st e).2.1 + (run_events env (step_ev env st e).1 es).2.1,
      (step_ev env st e).2.2 + (run_events env (step_ev env st e).1 es).2.2)

/-- Run a sequence of inbound free-text messages from one peer, returning
the routing outcome of each in order. -/
def run_msgs (env : Env) (st : TermState) (p : List Char) :
    List (List Char × Nat) → List RxPath
  | [] => []
  | (t, τ) :: rest =>
    (route_text env st p t τ).1 :: run_msgs env (route_text env st p t τ).2 p rest

/-- A concrete healthy station state: connected, scheduler enabled at the
default 60-second interval with one selected (trusted) node, chatbot on. -/
def stBase : TermState :=
  { connected := true, hasInterface := true, auto_send_enabled := true,
    auto_send_paused := false, auto_send_interval := 60,
    selected_nodes := [['!', 'a']], last_send_time := 0,
    chatbot_present := true, chatbot_available := true, chatbot_model_exists := true,
    chatbot_loaded := true, chatbot_enabled := true,
    rate_limit_tracker := [], message_acks := [] }

/-- A concrete environment: no signal data, no telemetry, loads succeed. -/
def envBase : Env :=
  { radiocheckMsg := none, telemetryMsg := [], loadSucceeds := true,
    greeting := "Hello. I am MeshBot. How can I help you?".toList }

/-- A peer outside `stBase`'s target set. -/
def untrustedPeer : List Char := ['!', 'b']

/-- Fifty-two identical same-instant free-text messages from the untrusted
peer. -/
def c2_msgs : List (List Char × Nat) := List.replicate 52 (['h', 'i'], 0)

/-- An event that is not a START command from a peer in the given target
set: such events are exactly the ones that cannot resume a paused
scheduler. -/
def notTrustedStart (sel : List (List Char)) : Ev → Prop
  | Ev.msg g t _ => pyUpper (pyStrip t) = kwSTART → g ∉ sel
  | Ev.tick _ _ => True

/-- Events after the STOP in the C3 witness: two ticks far beyond the
60-second interval and an untrusted START attempt between them. -/
def c3_evs : List Ev :=
  [Ev.tick 1000 (fun i => 1000 + i), Ev.msg untrustedPeer kwSTART 1500,
    Ev.tick 2000 (fun i => 2000 + i)]

/-- The base station with two target peers. -/
def stTwoPeers : TermState := { stBase with selected_nodes := [['!', 'a'], ['!', 'b']] }

/-- State after two telemetry sends to peer `"!a"` with one routing
acknowledgment between them: the first send marks Pending at 100, an ack at
150 overwrites it, the second send marks Pending again at 200. -/
def c9_afterResend : TermState :=
  (send_telemetry
    (handle_routing_response (send_telemetry stBase (fun i => 100 + i)).1
      ['!', 'a'] "NONE".toList 150)
    (fun i => 200 + i)).1

/-- The base station with the chatbot not yet enabled or loaded. -/
def stBotOff : TermState := { stBase with chatbot_enabled := false, chatbot_loaded := false }

/-- Occurrence indices are in range: position plus pattern length fits. -/
theorem occList_bound {pat s : List Char} {i : Nat} (h : i ∈ occList pat s) :
    i + pat.length ≤ s.length := by
  unfold occList at h
  rw [List.mem_filter] at h
  obtain ⟨hr, hp⟩ := h
  rw [List.mem_range] at hr
  have hlen : pat.length ≤ (s.drop i).length := by
    clear hr
    induction pat generalizing s i with
    | nil => simp
    | cons a as ih =>
      cases hd : s.drop i with
      | nil => rw [hd] at hp; simp [leadsWith] at hp
      | cons b bs =>
        rw [hd] at hp
        simp only [leadsWith, Bool.and_eq_true] at hp
        have := ih (s := bs) (i := 0) (by simpa using hp.2)
        simp only [List.drop_zero] at this
        simp only [hd, List.length_cons]
        omega
  rw [List.length_drop] at hlen
  omega

/-- The last element of a list is a member (specialised to `Nat`). -/
theorem getLast?_mem_nat : ∀ (l : List Nat) (i : Nat), l.getLast? = some i → i ∈ l := by
  intro l
  induction l with
  | nil => intro i h; simp at h
  | cons a t ih =>
    intro i h
    cases t with
    | nil => simp_all
    | cons b u =>
      rw [List.getLast?_cons_cons] at h
      exact List.mem_cons_of_mem a (ih i h)

/-- A nonnegative `pyRfind` result is an occurrence index. -/
theorem pyRfind_occ {s pat : List Char} {i : Int} (h : pyRfind s pat = i) (hi : 0 ≤ i) :
    i.toNat ∈ occList pat s := by
  unfold pyRfind at h
  cases hl : (occList pat s).getLast? with
  | none =>
    rw [hl] at h
    simp at h
    omega
  | some j =>
    rw [hl] at h
    simp at h
    have hj : i.toNat = j := by omega
    rw [hj]
    exact getLast?_mem_nat _ _ hl

/-- The chosen split point never exceeds `maxLength` for a chunk of length at
most `maxLength`. -/
theorem computeSplitPoint_le {chunk : List Char} {maxLength : Nat}
    (hc : chunk.length ≤ maxLength) : computeSplitPoint chunk maxLength ≤ maxLength := by
  unfold computeSplitPoint
  split
  next hper =>
    rcases max_choice (pyRfind chunk dotSpace)
        (max (pyRfind chunk bangSpace) (pyRfind chunk questSpace)) with h1 | h1 <;>
      rw [h1] at hper ⊢
    · have hocc : (pyRfind chunk dotSpace).toNat + 2 ≤ chunk.length :=
        occList_bound (@pyRfind_occ chunk dotSpace _ rfl (by omega))
      omega
    · rcases max_choice (pyRfind chunk bangSpace) (pyRfind chunk questSpace) with h2 | h2 <;>
        rw [h2] at hper ⊢
      · have hocc : (pyRfind chunk bangSpace).toNat + 2 ≤ chunk.length :=
          occList_bound (@pyRfind_occ chunk bangSpace _ rfl (by omega))
        omega
      · have hocc : (pyRfind chunk questSpace).toNat + 2 ≤ chunk.length :=
          occList_bound (@pyRfind_occ chunk questSpace _ rfl (by omega))
        omega
  next =>
    split
    next hsp =>
      have hocc : (pyRfind chunk [' ']).toNat + 1 ≤ chunk.length :=
        occList_bound (@pyRfind_occ chunk [' '] _ rfl (by omega))
      omega
    next => omega

/-- The chosen split point is positive whenever `maxLength` is. -/
theorem computeSplitPoint_pos {chunk : List Char} {maxLength : Nat}
    (hm : 1 ≤ maxLength) : 1 ≤ computeSplitPoint chunk maxLength := by
  unfold computeSplitPoint
  split
  · omega
  · split
    · omega
    · omega

/-- Dropping a matching run never lengthens a list. -/
theorem dropWhileLenLe (p : Char → Bool) (l : List Char) :
    (l.dropWhile p).length ≤ l.length := by
  induction l with
  | nil => simp
  | cons a t ih =>
    rw [List.dropWhile_cons]
    split
    · exact le_trans ih (by simp)
    · simp

/-- Stripping never lengthens a string. -/
theorem pyStrip_length_le (s : List Char) : (pyStrip s).length ≤ s.length := by
  unfold pyStrip
  have h1 := dropWhileLenLe isWs s
  have h2 := dropWhileLenLe isWs (s.dropWhile isWs).reverse
  simp only [List.length_reverse] at *
  omega

/-- Every chunk the loop emits is at most `maxLength` long. -/
theorem splitMessageGo_chunk_le {maxLength : Nat} (hm : 1 ≤ maxLength) :
    ∀ (fuel : Nat) (remaining : List Char),
      ∀ c ∈ splitMessageGo maxLength fuel remaining, c.length ≤ maxLength := by
  intro fuel
  induction fuel with
  | zero =>
    intro remaining c hc
    cases remaining <;> simp [splitMessageGo] at hc
  | succ n ih =>
    intro remaining c hc
    cases remaining with
    | nil => simp [splitMessageGo] at hc
    | cons a t =>
      rw [splitMessageGo] at hc
      split at hc
      next hfit =>
        rw [List.mem_singleton] at hc
        subst hc
        exact hfit
      next hfit =>
        rcases List.mem_cons.mp hc with hh | hh
        · subst hh
          have h1 := pyStrip_length_le
            ((a :: t).take (computeSplitPoint ((a :: t).take maxLength) maxLength))
          have h2 := List.length_take
            (computeSplitPoint ((a :: t).take maxLength) maxLength) (a :: t)
          have h3 := @computeSplitPoint_le ((a :: t).take maxLength)
            maxLength (by rw [List.length_take]; omega)
          omega
        · exact ih _ c hh

/-- Claim C7.  The chunker `split_message`: every chunk has length at most
`maxLen`, and a text that already fits is returned as the single-element
sequence holding exactly that text. -/
theorem split_message_chunks_bounded (text : List Char) (maxLen : Nat) (hm : 1 ≤ maxLen) :
    (∀ c ∈ split_message text maxLen, c.length ≤ maxLen) ∧
      (text.length ≤ maxLen → split_message text maxLen = [text]) := by
  constructor
  · intro c hc
    unfold split_message at hc
    split at hc
    next hfit =>
      rw [List.mem_singleton] at hc
      subst hc
      exact hfit
    next => exact splitMessageGo_chunk_le hm _ _ c hc
  · intro hfit
    unfold split_message
    rw [if_pos hfit]

/-- Witness for C7 at a concrete input: the one-line text fits and round
trips; a longer text chunks within the bound. -/
theorem split_message_chunks_bounded_witness :
    (1 ≤ 5 ∧ ("ab c".toList.length ≤ 5 → split_message "ab c".toList 5 = ["ab c".toList])) ∧
      ∀ c ∈ split_message "aaaa aaaa".toList 5, c.length ≤ 5 := by
  refine ⟨⟨by decide, (split_message_chunks_bounded "ab c".toList 5 (by decide)).2⟩, ?_⟩
  exact (split_message_chunks_bounded "aaaa aaaa".toList 5 (by decide)).1

/-- Filtering by the negation of `p` ignores a dropped `p`-run. -/
theorem filter_dropWhile_not (p : Char → Bool) (l : List Char) :
    (l.dropWhile p).filter (fun c => !(p c)) = l.filter (fun c => !(p c)) := by
  induction l with
  | nil => simp
  | cons a t ih =>
    rw [List.dropWhile_cons]
    split
    next hp => rw [ih, List.filter_cons_of_neg (by simp [hp])]
    next => rfl

/-- Stripping preserves the non-whitespace content of a string. -/
theorem filter_pyStrip (s : List Char) :
    (pyStrip s).filter notWs = s.filter notWs := by
  unfold pyStrip
  have hws : notWs = fun c => !(isWs c) := by
    funext c
    rfl
  rw [hws, List.filter_reverse, filter_dropWhile_not, List.filter_reverse,
    List.reverse_reverse, filter_dropWhile_not]

/-- The loop preserves non-whitespace characters in order (fuel at least the
remainder's length). -/
theorem splitMessageGo_filter {maxLength : Nat} (hm : 1 ≤ maxLength) :
    ∀ (fuel : Nat) (remaining : List Char), remaining.length ≤ fuel →
      (splitMessageGo maxLength fuel remaining).flatten.filter notWs
        = remaining.filter notWs := by
  intro fuel
  induction fuel with
  | zero =>
    intro remaining hlen
    have : remaining = [] := List.eq_nil_of_length_eq_zero (by omega)
    subst this
    simp [splitMessageGo]
  | succ n ih =>
    intro remaining hlen
    cases remaining with
    | nil => simp [splitMessageGo]
    | cons a t =>
      rw [splitMessageGo]
      split
      next => simp
      next hfit =>
        have hsp : 1 ≤ computeSplitPoint ((a :: t).take maxLength) maxLength :=
          computeSplitPoint_pos hm
        have hlen2 : (pyStrip ((a :: t).drop
            (computeSplitPoint ((a :: t).take maxLength) maxLength))).length ≤ n := by
          have h1 := pyStrip_length_le
            ((a :: t).drop (computeSplitPoint ((a :: t).take maxLength) maxLength))
          have h2 := List.length_drop
            (computeSplitPoint ((a :: t).take maxLength) maxLength) (a :: t)
          simp only [List.length_cons] at *
          omega
        rw [List.flatten_cons, List.filter_append, filter_pyStrip, ih _ hlen2,
          filter_pyStrip, ← List.filter_append, List.take_append_drop]

/-- Counterexample to claim C8 as stated.  A word longer than `maxLen` is
hard-cut across chunks, so the space-joined chunks of `"aaaa"` at `maxLen = 2`
have words `["aa", "aa"]`, not the original single word `["aaaa"]`; and under
the direct-concatenation reading the space-split chunks of `"ab cd"` at
`maxLen = 3` merge into the single word `["abcd"]`, dropping the original two
words.  Either reading of "concatenating with whitespace collapse" fails. -/
theorem split_message_word_roundtrip_fails :
    pyWords (List.intercalate [' '] (split_message "aaaa".toList 2)) ≠ pyWords "aaaa".toList ∧
      pyWords (List.flatten (split_message "ab cd".toList 3)) ≠ pyWords "ab cd".toList := by
  decide

/-- Claim C8, amended.  For every text and `maxLen ≥ 1` the chunks,
concatenated in order, preserve exactly the original text's non-whitespace
characters in order (whitespace may be dropped at chunk boundaries); the
word-level round trip fails in general because a hard cut splits a word
longer than `maxLen` across chunks. -/
theorem split_message_content_roundtrip (text : List Char) (maxLen : Nat) (hm : 1 ≤ maxLen) :
    (split_message text maxLen).flatten.filter notWs = text.filter notWs := by
  unfold split_message
  split
  next => simp
  next => exact splitMessageGo_filter hm _ _ (le_refl _)

/-- Witness for the amended C8 at a concrete input with a hard cut. -/
theorem split_message_content_roundtrip_witness :
    (split_message "aa bbbb".toList 3).flatten.filter notWs = "aa bbbb".toList.filter notWs := by
  exact split_message_content_roundtrip "aa bbbb".toList 3 (by decide)

/-- The wrapper's state component is the dispatch stage's state. -/
theorem pkc_fst (env : Env) (st : TermState) (text fromId : List Char) :
    (process_keyword_command env st text fromId).1 = (pkc_core env st text fromId).1 := by
  unfold process_keyword_command
  rcases h : pkc_core env st text fromId with ⟨st', effs, rep⟩
  cases rep with
  | none => simp [h]
  | some r =>
    simp only [h]
    split <;> rfl

/-- No keyword command changes the target-node set. -/
theorem pkc_core_selected (env : Env) (st : TermState) (text fromId : List Char) :
    (pkc_core env st text fromId).1.selected_nodes = st.selected_nodes := by
  unfold pkc_core
  cases classifyCmd text <;> simp only [pkc_branch] <;> (repeat' split) <;> simp

/-- Fields no keyword command writes: connection and interface flags,
enablement, last send time, rate tracker, ack table, chatbot presence. -/
theorem pkc_core_frame (env : Env) (st : TermState) (text fromId : List Char) :
    (pkc_core env st text fromId).1.connected = st.connected ∧
    (pkc_core env st text fromId).1.hasInterface = st.hasInterface ∧
    (pkc_core env st text fromId).1.auto_send_enabled = st.auto_send_enabled ∧
    (pkc_core env st text fromId).1.last_send_time = st.last_send_time ∧
    (pkc_core env st text fromId).1.rate_limit_tracker = st.rate_limit_tracker ∧
    (pkc_core env st text fromId).1.message_acks = st.message_acks ∧
    (pkc_core env st text fromId).1.chatbot_present = st.chatbot_present ∧
    (pkc_core env st text fromId).1.chatbot_available = st.chatbot_available := by
  unfold pkc_core
  cases classifyCmd text <;> simp only [pkc_branch] <;> (repeat' split) <;> simp

/-- Only the literal START text classifies as the start command. -/
theorem classifyCmd_start {text : List Char} (h : classifyCmd text = Cmd.start) :
    text = kwSTART := by
  unfold classifyCmd at h
  repeat' split at h
  all_goals simp_all

/-- Any keyword command other than START leaves a paused scheduler
paused (STOP re-pauses; nothing else touches the flag). -/
theorem pkc_core_paused (env : Env) (st : TermState) (text fromId : List Char)
    (hp : st.auto_send_paused = true) (ht : text ≠ kwSTART) :
    (pkc_core env st text fromId).1.auto_send_paused = true := by
  unfold pkc_core
  cases hc : classifyCmd text with
  | start => exact absurd (classifyCmd_start hc) ht
  | _ => simp only [pkc_branch] <;> (repeat' split) <;> first | rfl | exact hp

/-- Keyword commands keep the interval inside [30, 3600]: only the FREQ
branch writes it, under its own range guard. -/
theorem pkc_core_interval (env : Env) (st : TermState) (text fromId : List Char)
    (h1 : 30 ≤ st.auto_send_interval) (h2 : st.auto_send_interval ≤ 3600) :
    30 ≤ (pkc_core env st text fromId).1.auto_send_interval ∧
      (pkc_core env st text fromId).1.auto_send_interval ≤ 3600 := by
  unfold pkc_core
  cases classifyCmd text with
  | freq s =>
    simp only [pkc_branch]
    rcases pyInt s with _ | n
    · exact ⟨h1, h2⟩
    · simp only []
      split
      next hn => exact ⟨by dsimp only; omega, by dsimp only; omega⟩
      next => exact ⟨h1, h2⟩
  | _ => simp only [pkc_branch] <;> (repeat' split) <;> exact ⟨h1, h2⟩

/-- No keyword command ever hands work to an independent worker: the
synchronous effect trace never contains `spawnWorker`. -/
theorem pkc_no_spawn (env : Env) (st : TermState) (text fromId : List Char) :
    Effect.spawnWorker ∉ (process_keyword_command env st text fromId).2 := by
  have hcore : Effect.spawnWorker ∉ (pkc_core env st text fromId).2.1 := by
    unfold pkc_core
    cases classifyCmd text <;> simp only [pkc_branch] <;> (repeat' split) <;> simp
  unfold process_keyword_command
  rcases h : pkc_core env st text fromId with ⟨st', effs, rep⟩
  rw [h] at hcore
  cases rep with
  | none => simpa using hcore
  | some r =>
    simp only []
    split
    · intro hmem
      simp only [List.mem_append, List.mem_singleton] at hmem
      rcases hmem with hmem | hmem
      · exact hcore hmem
      · cases hmem
    · exact hcore

/-- Lookup after inserting a key finds the inserted entry. -/
theorem alistLookup_insert_self {β : Type} (m : List (List Char × β)) (p : List Char) (e : β) :
    alistLookup (alistInsert m p e) p = some e := by
  induction m with
  | nil => simp [alistInsert, alistLookup]
  | cons hd tl ih =>
    obtain ⟨k, v⟩ := hd
    by_cases hk : k = p
    · subst hk
      simp [alistInsert, alistLookup]
    · simp [alistInsert, alistLookup, hk, ih]

/-- Inserting one key leaves lookups of other keys unchanged. -/
theorem alistLookup_insert_ne {β : Type} (m : List (List Char × β)) (k p : List Char) (e : β)
    (h : k ≠ p) : alistLookup (alistInsert m k e) p = alistLookup m p := by
  induction m with
  | nil => simp [alistInsert, alistLookup, h]
  | cons hd tl ih =>
    obtain ⟨q, v⟩ := hd
    by_cases hq : q = k
    · subst hq
      simp [alistInsert, alistLookup, h]
    · simp [alistInsert, alistLookup, hq, ih]

/-- Counterexample to claim C1 as stated.  From the untrusted peer `"!b"`,
with the responder present, enabled and loaded, the keyword text `"STOP"`
is not routed to the rate-limited free-text responder path: `on_receive`'s
responder branch requires the text *not* to look like a keyword, so the
message is only stored (`logOnly`), with no state change.  The claim's
"no command is executed" half holds; its "routed to the responder" half is
false. -/
theorem untrusted_keyword_not_responder_path :
    stBase.chatbot_enabled = true ∧ stBase.chatbot_loaded = true ∧
    (untrustedPeer ∈ stBase.selected_nodes → False) ∧
    is_keyword (pyUpper (pyStrip kwSTOP)) = true ∧
    (route_text envBase stBase untrustedPeer kwSTOP 0).1 = RxPath.logOnly ∧
    RxPath.logOnly ≠ RxPath.chatbot ∧ RxPath.logOnly ≠ RxPath.rateLimited ∧
    (route_text envBase stBase untrustedPeer kwSTOP 0).2 = stBase := by
  decide

/-- Claim C1, amended.  Keyword-looking text from a peer outside the target
set executes no command and changes no state, and is *not* routed to the
responder path either — the handler only logs it, whatever the responder's
availability. -/
theorem untrusted_keyword_text_logged_only (env : Env) (st : TermState)
    (f t : List Char) (now : Nat)
    (hk : is_keyword (pyUpper (pyStrip t)) = true) (hf : f ∉ st.selected_nodes) :
    route_text env st f t now = (RxPath.logOnly, st) := by
  unfold route_text
  rw [if_neg (fun hc => hf hc.2),
    if_neg (fun hc => by rw [hk] at hc; exact absurd hc.1 (by decide))]

/-- Witness for the amended C1 at a concrete input: a WEATHERCHECK text in
lowercase with surrounding blanks, from the untrusted peer. -/
theorem untrusted_keyword_text_logged_only_witness :
    is_keyword (pyUpper (pyStrip " weathercheck ".toList)) = true ∧
    untrustedPeer ∉ stBase.selected_nodes ∧
    route_text envBase stBase untrustedPeer " weathercheck ".toList 7
      = (RxPath.logOnly, stBase) := by
  refine ⟨by decide, by decide, ?_⟩
  exact untrusted_keyword_text_logged_only envBase stBase untrustedPeer
    " weathercheck ".toList 7 (by decide) (by decide)

/-- A missing tracker entry: the first call creates a fresh 3600-second
window and allows with count 1. -/
theorem crl_fresh (tr : List (List Char × RateEntry)) (p : List Char) (now : Nat)
    (h : alistLookup tr p = none) :
    check_rate_limit tr p now = (true, alistInsert tr p (RateEntry.mk 1 (now + 3600))) := by
  unfold check_rate_limit
  rw [h]
  dsimp only
  rw [if_neg (by omega : ¬ (now + 3600 ≤ now)), if_neg (by omega : ¬ (50 ≤ 0))]

/-- Inside a live window and under the cap, the call allows and increments. -/
theorem crl_allow (tr : List (List Char × RateEntry)) (p : List Char) (now c r : Nat)
    (h : alistLookup tr p = some (RateEntry.mk c r)) (hw : now < r) (hc : c < 50) :
    check_rate_limit tr p now = (true, alistInsert tr p (RateEntry.mk (c + 1) r)) := by
  unfold check_rate_limit
  rw [h]
  dsimp only
  rw [if_neg (by omega : ¬ (r ≤ now)), if_neg (by omega : ¬ (50 ≤ c))]

/-- Inside a live window at the cap, the call denies and keeps the count. -/
theorem crl_deny (tr : List (List Char × RateEntry)) (p : List Char) (now c r : Nat)
    (h : alistLookup tr p = some (RateEntry.mk c r)) (hw : now < r) (hc : 50 ≤ c) :
    check_rate_limit tr p now = (false, alistInsert tr p (RateEntry.mk c r)) := by
  unfold check_rate_limit
  rw [h]
  dsimp only
  rw [if_neg (by omega : ¬ (r ≤ now)), if_pos hc]

/-- Free text from an unselected peer with the responder on reduces to the
rate-limit check: allowed goes to the responder, denied sends one notice;
only the tracker changes. -/
theorem route_free (env : Env) (st : TermState) (p t : List Char) (τ : Nat)
    (hk : is_keyword (pyUpper (pyStrip t)) = false)
    (hce : st.chatbot_enabled = true) (hcp : st.chatbot_present = true)
    (hcl : st.chatbot_loaded = true) (hp : p ∉ st.selected_nodes) :
    route_text env st p t τ
      = (if (check_rate_limit st.rate_limit_tracker p τ).1 then RxPath.chatbot
          else RxPath.rateLimited,
        { st with rate_limit_tracker := (check_rate_limit st.rate_limit_tracker p τ).2 }) := by
  unfold route_text
  rw [if_neg (fun hc => hp hc.2), if_pos ⟨hk, hce, hcp, hcl⟩, if_pos hp]
  rcases hcrl : check_rate_limit st.rate_limit_tracker p τ with ⟨ok, tr⟩
  cases ok <;> simp

/-- Window invariant: from a tracker entry with count `c ≤ 50`, a run of
in-window free-text messages yields `50 - c` responder routings then only
rate-limit denials, one notice each. -/
theorem run_msgs_paths (env : Env) (p : List Char) :
    ∀ (msgs : List (List Char × Nat)) (st : TermState) (c r : Nat),
    alistLookup st.rate_limit_tracker p = some (RateEntry.mk c r) → c ≤ 50 →
    st.chatbot_enabled = true → st.chatbot_present = true → st.chatbot_loaded = true →
    p ∉ st.selected_nodes →
    (∀ m ∈ msgs, is_keyword (pyUpper (pyStrip m.1)) = false ∧ m.2 < r) →
    run_msgs env st p msgs
      = List.replicate (min msgs.length (50 - c)) RxPath.chatbot
        ++ List.replicate (msgs.length - (50 - c)) RxPath.rateLimited := by
  intro msgs
  induction msgs with
  | nil => intro st c r _ _ _ _ _ _ _; simp [run_msgs]
  | cons m rest ih =>
    intro st c r htr hc hce hcp hcl hp hall
    obtain ⟨t, τ⟩ := m
    have hm := hall (t, τ) (List.mem_cons_self _ _)
    by_cases hc50 : c < 50
    · have hcrl := crl_allow st.rate_limit_tracker p τ c r htr hm.2 hc50
      rw [run_msgs, route_free env st p t τ hm.1 hce hcp hcl hp, hcrl]
      dsimp only
      rw [if_pos rfl]
      have hih := ih
        { st with rate_limit_tracker :=
            (alistInsert st.rate_limit_tracker p (RateEntry.mk (c + 1) r)) }
        (c + 1) r
        (by dsimp only; exact alistLookup_insert_self _ _ _) (by omega) hce hcp hcl hp
        (fun m hm2 => hall m (List.mem_cons_of_mem _ hm2))
      rw [hih]
      have e1 : min (rest.length + 1) (50 - c) = min rest.length (50 - (c + 1)) + 1 := by omega
      have e2 : rest.length + 1 - (50 - c) = rest.length - (50 - (c + 1)) := by omega
      simp only [List.length_cons, e1, e2, List.replicate_succ, List.cons_append]
    · have hc' : c = 50 := by omega
      subst hc'
      have hcrl := crl_deny st.rate_limit_tracker p τ 50 r htr hm.2 (by omega)
      rw [run_msgs, route_free env st p t τ hm.1 hce hcp hcl hp, hcrl]
      dsimp only
      rw [if_neg (by simp)]
      have hih := ih
        { st with rate_limit_tracker :=
            (alistInsert st.rate_limit_tracker p (RateEntry.mk 50 r)) }
        50 r
        (by dsimp only; exact alistLookup_insert_self _ _ _) (by omega) hce hcp hcl hp
        (fun m hm2 => hall m (List.mem_cons_of_mem _ hm2))
      rw [hih]
      simp [List.replicate_succ]

/-- Claim C2, amended.  For a peer outside the target set with no prior
tracker entry, a run of free-text messages whose later arrivals all fall
inside the 3600-second window opened by the first: the first 50 are allowed
through to the responder, every further message in the window is denied, and
one rate-limited notice is sent per denied message — the code keeps no
already-notified flag, so a window violation with k denied messages produces
k notices, not one. -/
theorem rate_limit_window_paths (env : Env) (st : TermState) (p firstText : List Char)
    (t0 : Nat) (rest : List (List Char × Nat))
    (htr : alistLookup st.rate_limit_tracker p = none)
    (hce : st.chatbot_enabled = true) (hcp : st.chatbot_present = true)
    (hcl : st.chatbot_loaded = true) (hp : p ∉ st.selected_nodes)
    (hk0 : is_keyword (pyUpper (pyStrip firstText)) = false)
    (hrest : ∀ m ∈ rest, is_keyword (pyUpper (pyStrip m.1)) = false ∧ m.2 < t0 + 3600) :
    run_msgs env st p ((firstText, t0) :: rest)
      = List.replicate (min (rest.length + 1) 50) RxPath.chatbot
        ++ List.replicate (rest.length + 1 - 50) RxPath.rateLimited := by
  have hcrl := crl_fresh st.rate_limit_tracker p t0 htr
  rw [run_msgs, route_free env st p firstText t0 hk0 hce hcp hcl hp, hcrl]
  dsimp only
  rw [if_pos rfl]
  have hih := run_msgs_paths env p rest
    { st with rate_limit_tracker :=
        (alistInsert st.rate_limit_tracker p (RateEntry.mk 1 (t0 + 3600))) }
    1 (t0 + 3600)
    (by dsimp only; exact alistLookup_insert_self _ _ _) (by omega) hce hcp hcl hp hrest
  rw [hih]
  have e1 : min (rest.length + 1) 50 = min rest.length 49 + 1 := by omega
  have e2 : rest.length + 1 - 50 = rest.length - 49 := by omega
  simp only [e1, e2, List.replicate_succ, List.cons_append]

/-- Counterexample to claim C2 as stated.  Across 52 in-window free-text
messages, the 51st and 52nd are both denied and *each* denial sends its own
notice — two notices in the same still-limited window, not the single
notice per window violation the claim asserts (the code tracks no
already-notified flag). -/
theorem rate_limit_renotifies_each_denial :
    run_msgs envBase stBase untrustedPeer c2_msgs
      = List.replicate 50 RxPath.chatbot ++ List.replicate 2 RxPath.rateLimited ∧
    (run_msgs envBase stBase untrustedPeer c2_msgs).count RxPath.rateLimited = 2 ∧
    (2 : Nat) ≠ 1 := by
  decide

/-- Witness for the amended C2 at a concrete input: one opening message and
51 further in-window messages give 50 responder routings and 2 denials. -/
theorem rate_limit_window_paths_witness :
    alistLookup stBase.rate_limit_tracker untrustedPeer = none ∧
    untrustedPeer ∉ stBase.selected_nodes ∧
    run_msgs envBase stBase untrustedPeer ((['h', 'i'], 0) :: List.replicate 51 (['h', 'i'], 5))
      = List.replicate (min ((List.replicate 51 ((['h', 'i'] : List Char), (5 : Nat))).length + 1) 50)
          RxPath.chatbot
        ++ List.replicate ((List.replicate 51 ((['h', 'i'] : List Char), (5 : Nat))).length + 1 - 50)
          RxPath.rateLimited := by
  refine ⟨by decide, by decide, ?_⟩
  exact rate_limit_window_paths envBase stBase untrustedPeer ['h', 'i'] 0
    (List.replicate 51 (['h', 'i'], 5)) (by decide) (by decide) (by decide) (by decide)
    (by decide) (by decide)
    (fun m hm => by rw [List.eq_of_mem_replicate hm]; exact ⟨by decide, by decide⟩)

/-- One step from a paused state: no telemetry batch, still paused, target
set unchanged — provided the event is not a trusted START. -/
theorem step_ev_paused (env : Env) (st : TermState) (e : Ev)
    (hp : st.auto_send_paused = true) (he : notTrustedStart st.selected_nodes e) :
    (step_ev env st e).1.auto_send_paused = true ∧ (step_ev env st e).2.1 = 0 ∧
      (step_ev env st e).1.selected_nodes = st.selected_nodes := by
  cases e with
  | tick now clk =>
    have hdue : tick_due st now = false := by
      unfold tick_due
      rw [hp]
      simp
    simp only [step_ev]
    rw [hdue]
    simp [hp]
  | msg f t now =>
    simp only [step_ev]
    unfold route_text
    by_cases h1 : is_keyword (pyUpper (pyStrip t)) = true ∧ f ∈ st.selected_nodes
    · rw [if_pos h1]
      have ht : pyUpper (pyStrip t) ≠ kwSTART := by
        intro hstart
        exact absurd h1.2 (he hstart)
      dsimp only
      rw [pkc_fst]
      exact ⟨pkc_core_paused env st _ f hp ht, rfl,
        pkc_core_selected env st _ f⟩
    · rw [if_neg h1]
      by_cases h2 : is_keyword (pyUpper (pyStrip t)) = false ∧ st.chatbot_enabled = true
          ∧ st.chatbot_present = true ∧ st.chatbot_loaded = true
      · rw [if_pos h2]
        by_cases h3 : f ∉ st.selected_nodes
        · rw [if_pos h3]
          rcases hcrl : check_rate_limit st.rate_limit_tracker f now with ⟨ok, tr⟩
          cases ok <;> simp [hp]
        · rw [if_neg h3]
          exact ⟨hp, rfl, rfl⟩
      · rw [if_neg h2]
        exact ⟨hp, rfl, rfl⟩

/-- A paused scheduler issues zero telemetry batches over any event run
containing no START from a target peer, and stays paused. -/
theorem run_events_paused (env : Env) :
    ∀ (evs : List Ev) (st : TermState), st.auto_send_paused = true →
    (∀ e ∈ evs, notTrustedStart st.selected_nodes e) →
    (run_events env st evs).2.1 = 0 ∧ (run_events env st evs).1.auto_send_paused = true := by
  intro evs
  induction evs with
  | nil => intro st hp _; exact ⟨rfl, hp⟩
  | cons e es ih =>
    intro st hp hall
    have hstep := step_ev_paused env st e hp (hall e (List.mem_cons_self _ _))
    have hih := ih (step_ev env st e).1 hstep.1
      (fun e2 he2 => by
        rw [hstep.2.2]
        exact hall e2 (List.mem_cons_of_mem _ he2))
    rw [run_events]
    refine ⟨?_, hih.2⟩
    rw [hstep.2.1, hih.1]

/-- A STOP from a trusted peer only sets the paused flag. -/
theorem route_stop (env : Env) (st : TermState) (f : List Char) (now : Nat)
    (hf : f ∈ st.selected_nodes) :
    (route_text env st f kwSTOP now).2 = { st with auto_send_paused := true } := by
  unfold route_text
  rw [if_pos ⟨by decide, hf⟩]
  dsimp only
  rw [pkc_fst]
  show (pkc_core env st kwSTOP f).1 = _
  unfold pkc_core
  rw [(by decide : classifyCmd kwSTOP = Cmd.stop)]
  rfl

/-- A START from a trusted peer clears the paused flag. -/
theorem route_start_unpauses (env : Env) (st : TermState) (g : List Char) (now : Nat)
    (hg : g ∈ st.selected_nodes) :
    (route_text env st g kwSTART now).2.auto_send_paused = false := by
  unfold route_text
  rw [if_pos ⟨by decide, hg⟩]
  dsimp only
  rw [pkc_fst]
  show (pkc_core env st kwSTART g).1.auto_send_paused = false
  unfold pkc_core
  rw [(by decide : classifyCmd kwSTART = Cmd.start)]
  rfl

/-- Claim C3.  After a STOP command from a peer in the target set the
scheduler is paused and performs zero telemetry sends over any subsequent
run of ticks and messages that contains no START from a target peer — no
matter how much time the ticks let elapse — and a subsequent START from a
target peer resumes it. -/
theorem stop_command_halts_sends (env : Env) (st : TermState) (f : List Char)
    (now : Nat) (evs : List Ev) (hf : f ∈ st.selected_nodes)
    (hevs : ∀ e ∈ evs, notTrustedStart st.selected_nodes e) :
    (route_text env st f kwSTOP now).2.auto_send_paused = true ∧
    (run_events env (route_text env st f kwSTOP now).2 evs).2.1 = 0 ∧
    (∀ g now2, g ∈ st.selected_nodes →
      (route_text env (route_text env st f kwSTOP now).2 g kwSTART now2).2.auto_send_paused
        = false) := by
  rw [route_stop env st f now hf]
  refine ⟨rfl, ?_, ?_⟩
  · exact (run_events_paused env evs { st with auto_send_paused := true } rfl hevs).1
  · intro g now2 hg
    exact route_start_unpauses env _ g now2 hg

/-- Witness for C3 at a concrete input: after STOP from the trusted peer,
ticks at 1000 s and 2000 s (interval 60 s) send nothing, an untrusted START
does not resume, and a trusted START does. -/
theorem stop_command_halts_sends_witness :
    ['!', 'a'] ∈ stBase.selected_nodes ∧
    ((route_text envBase stBase ['!', 'a'] kwSTOP 0).2.auto_send_paused = true ∧
      (run_events envBase (route_text envBase stBase ['!', 'a'] kwSTOP 0).2 c3_evs).2.1 = 0 ∧
      (∀ g now2, g ∈ stBase.selected_nodes →
        (route_text envBase (route_text envBase stBase ['!', 'a'] kwSTOP 0).2 g kwSTART
            now2).2.auto_send_paused = false)) := by
  refine ⟨by decide, ?_⟩
  refine stop_command_halts_sends envBase stBase ['!', 'a'] 0 c3_evs (by decide) ?_
  intro e he
  simp only [c3_evs, List.mem_cons, List.not_mem_nil, or_false] at he
  rcases he with rfl | rfl | rfl
  · exact trivial
  · intro hs
    decide
  · exact trivial

/-- A FREQ-prefixed text is never the STOP literal. -/
theorem freq_ne_stop (s : List Char) : kwFREQ ++ s ≠ kwSTOP := by
  intro h
  injection h with h1 _
  exact absurd h1 (by decide)

/-- A FREQ-prefixed text is never the START literal. -/
theorem freq_ne_start (s : List Char) : kwFREQ ++ s ≠ kwSTART := by
  intro h
  injection h with h1 _
  exact absurd h1 (by decide)

/-- FREQ with a nonempty remainder classifies as the freq command carrying
that remainder. -/
theorem classifyCmd_freq (s : List Char) (hs : s ≠ []) :
    classifyCmd (kwFREQ ++ s) = Cmd.freq s := by
  unfold classifyCmd
  rw [if_neg (freq_ne_stop s), if_neg (freq_ne_start s),
    if_pos ⟨rfl, by
      simp only [kwFREQ, List.cons_append, List.nil_append, List.length_cons]
      have := List.length_pos.mpr hs
      omega⟩]
  rfl

/-- The empty string does not parse as an integer. -/
theorem pyInt_nil : pyInt [] = none := by decide

/-- Claim C4.  A FREQ command from a trusted peer: an out-of-range value
leaves the state untouched and replies with the range rejection; an
unparseable value leaves the state untouched and replies with the format
rejection; FREQ120 sets the interval to 120, saves the config, and the
confirmation reply names the prior interval. -/
theorem freq_command_validation (env : Env) (st : TermState) (f s : List Char)
    (hif : st.hasInterface = true) :
    (∀ n, pyInt s = some n → (n < 30 ∨ 3600 < n) →
      process_keyword_command env st (kwFREQ ++ s) f = (st, [Effect.sendText f msgFreqRange])) ∧
    (s ≠ [] → pyInt s = none →
      process_keyword_command env st (kwFREQ ++ s) f = (st, [Effect.sendText f msgFreqInvalid])) ∧
    process_keyword_command env st (kwFREQ ++ ['1', '2', '0']) f
      = ({ st with auto_send_interval := 120 },
        [Effect.saveConfig, Effect.sendText f (freqSetMsg 120 st.auto_send_interval)]) := by
  refine ⟨?_, ?_, ?_⟩
  · intro n hn hrange
    have hs : s ≠ [] := by
      intro he
      subst he
      rw [pyInt_nil] at hn
      cases hn
    unfold process_keyword_command pkc_core
    rw [classifyCmd_freq s hs]
    simp only [pkc_branch, hn]
    rw [if_neg (by omega)]
    simp [hif]
  · intro hs hn
    unfold process_keyword_command pkc_core
    rw [classifyCmd_freq s hs]
    simp only [pkc_branch, hn]
    simp [hif]
  · have h120 : pyInt ['1', '2', '0'] = some 120 := by decide
    unfold process_keyword_command pkc_core
    rw [classifyCmd_freq ['1', '2', '0'] (by decide)]
    simp only [pkc_branch, h120]
    rw [if_pos (by constructor <;> decide)]
    simp [hif]

/-- Witness for C4 at concrete inputs: FREQ15 is rejected without mutation
and FREQ120 is accepted, from the healthy base state. -/
theorem freq_command_validation_witness :
    stBase.hasInterface = true ∧ pyInt ['1', '5'] = some 15 ∧ ((15 : Int) < 30 ∨ 3600 < 15) ∧
    process_keyword_command envBase stBase (kwFREQ ++ ['1', '5']) ['!', 'a']
      = (stBase, [Effect.sendText ['!', 'a'] msgFreqRange]) ∧
    process_keyword_command envBase stBase (kwFREQ ++ ['1', '2', '0']) ['!', 'a']
      = ({ stBase with auto_send_interval := 120 },
        [Effect.saveConfig, Effect.sendText ['!', 'a'] (freqSetMsg 120 stBase.auto_send_interval)]) := by
  refine ⟨by decide, by decide, by decide, ?_, ?_⟩
  · exact (freq_command_validation envBase stBase ['!', 'a'] ['1', '5'] (by decide)).1
      15 (by decide) (by decide)
  · exact (freq_command_validation envBase stBase ['!', 'a'] ['1', '5'] (by decide)).2.2

/-- Peers outside a pending-marking pass keep their prior ack entry. -/
theorem setPendingAcks_other (clk : Nat → Nat) :
    ∀ (peers : List (List Char)) (acks : List (List Char × AckEntry)) (i : Nat)
      (p : List Char), p ∉ peers →
      alistLookup (setPendingAcks acks peers clk i) p = alistLookup acks p := by
  intro peers
  induction peers with
  | nil => intro acks i p _; rfl
  | cons q ps ih =>
    intro acks i p hp
    rw [setPendingAcks]
    rw [ih _ _ p (fun h => hp (List.mem_cons_of_mem _ h))]
    exact alistLookup_insert_ne _ _ _ _ (fun h => hp (h ▸ List.mem_cons_self _ _))

/-- Every peer of a pending-marking pass ends with a Pending entry. -/
theorem setPendingAcks_pending (clk : Nat → Nat) :
    ∀ (peers : List (List Char)) (acks : List (List Char × AckEntry)) (i : Nat)
      (p : List Char), p ∈ peers →
      ∃ t, alistLookup (setPendingAcks acks peers clk i) p
        = some (AckEntry.mk t AckStatus.pending) := by
  intro peers
  induction peers with
  | nil => intro acks i p hp; cases hp
  | cons q ps ih =>
    intro acks i p hp
    rw [setPendingAcks]
    by_cases hps : p ∈ ps
    · exact ih _ _ p hps
    · have hq : p = q := by
        rcases List.mem_cons.mp hp with h | h
        · exact h
        · exact absurd h hps
      subst hq
      refine ⟨clk i, ?_⟩
      rw [setPendingAcks_other clk ps _ _ p hps]
      exact alistLookup_insert_self _ _ _

/-- A due tick implies the scheduler is enabled, connected, unpaused, with
the interval elapsed. -/
theorem tick_due_parts (st : TermState) (now : Nat) (h : tick_due st now = true) :
    st.auto_send_enabled = true ∧ st.connected = true ∧ st.auto_send_paused = false ∧
      st.auto_send_interval ≤ now - st.last_send_time := by
  unfold tick_due at h
  simp only [Bool.and_eq_true, Bool.not_eq_true', decide_eq_true_eq] at h
  exact ⟨h.1.1.1, h.1.1.2, h.1.2, h.2⟩

/-- On the success path the batch marks every target Pending and stores the
post-loop clock value as `last_send_time`. -/
theorem send_telemetry_success (st : TermState) (clk : Nat → Nat)
    (hconn : st.connected = true) (hif : st.hasInterface = true)
    (hsel : st.selected_nodes ≠ []) :
    send_telemetry st clk
      = ({ st with
            message_acks := (setPendingAcks st.message_acks st.selected_nodes clk 0),
            last_send_time := (clk st.selected_nodes.length) }, true) := by
  unfold send_telemetry
  rw [if_neg (fun hc => hc ⟨hconn, hif⟩), if_neg hsel]

/-- Claim C5, amended.  A due tick with a nonempty target set produces
exactly one telemetry batch and no notices; every target peer is left with a
Pending delivery status; `last_send_time` becomes the clock value *after*
the per-peer loop — the batch's completion time, not its initiation time —
and any further tick before the interval re-elapses from that completion
does nothing. -/
theorem telemetry_batch_pending_and_completion (env : Env) (st : TermState)
    (now : Nat) (clk : Nat → Nat)
    (hdue : tick_due st now = true) (hif : st.hasInterface = true)
    (hsel : st.selected_nodes ≠ []) (hint : 1 ≤ st.auto_send_interval) :
    (step_ev env st (Ev.tick now clk)).2.1 = 1 ∧
    (step_ev env st (Ev.tick now clk)).2.2 = 0 ∧
    (step_ev env st (Ev.tick now clk)).1.last_send_time = clk st.selected_nodes.length ∧
    (∀ p ∈ st.selected_nodes, ∃ t,
      alistLookup (step_ev env st (Ev.tick now clk)).1.message_acks p
        = some (AckEntry.mk t AckStatus.pending)) ∧
    (∀ now2 clk2, now2 < clk st.selected_nodes.length + st.auto_send_interval →
      step_ev env (step_ev env st (Ev.tick now clk)).1 (Ev.tick now2 clk2)
        = ((step_ev env st (Ev.tick now clk)).1, 0, 0)) := by
  have hconn := (tick_due_parts st now hdue).2.1
  have hsend := send_telemetry_success st clk hconn hif hsel
  have hstep : step_ev env st (Ev.tick now clk)
      = ({ st with
            message_acks := (setPendingAcks st.message_acks st.selected_nodes clk 0),
            last_send_time := (clk st.selected_nodes.length) }, 1, 0) := by
    simp only [step_ev]
    rw [hdue, hsend]
    rfl
  rw [hstep]
  refine ⟨rfl, rfl, rfl, ?_, ?_⟩
  · intro p hp
    exact setPendingAcks_pending clk st.selected_nodes st.message_acks 0 p hp
  · intro now2 clk2 hlt
    have hdue2 : tick_due
        { st with
            message_acks := (setPendingAcks st.message_acks st.selected_nodes clk 0),
            last_send_time := (clk st.selected_nodes.length) } now2 = false := by
      unfold tick_due
      simp only [Bool.and_eq_false_iff, decide_eq_false_iff_not]
      right
      omega
    simp only [step_ev]
    rw [hdue2]
    rfl

/-- Counterexample to claim C5 as stated.  With two target peers and the
batch's `time.time()` calls reading 100, 101, 102 (initiation at 100, one
second per peer send), the stored `last_send_time` is 102 — the value read
*after* the loop (line 982 runs on completion) — not the initiation time 100
the claim asserts. -/
theorem last_send_time_is_completion_not_initiation :
    tick_due stTwoPeers 100 = true ∧
    (step_ev envBase stTwoPeers (Ev.tick 100 (fun i => 100 + i))).1.last_send_time = 102 ∧
    (step_ev envBase stTwoPeers (Ev.tick 100 (fun i => 100 + i))).1.last_send_time ≠ 100 := by
  decide

/-- Witness for the amended C5 at a concrete input: the due tick at 100 with
two peers and a one-second-per-peer clock. -/
theorem telemetry_batch_pending_and_completion_witness :
    tick_due stTwoPeers 100 = true ∧ stTwoPeers.hasInterface = true ∧
    stTwoPeers.selected_nodes ≠ [] ∧ 1 ≤ stTwoPeers.auto_send_interval ∧
    ((step_ev envBase stTwoPeers (Ev.tick 100 (fun i => 100 + i))).2.1 = 1 ∧
      (step_ev envBase stTwoPeers (Ev.tick 100 (fun i => 100 + i))).2.2 = 0 ∧
      (step_ev envBase stTwoPeers (Ev.tick 100 (fun i => 100 + i))).1.last_send_time
        = (fun i => 100 + i) stTwoPeers.selected_nodes.length ∧
      (∀ p ∈ stTwoPeers.selected_nodes, ∃ t,
        alistLookup (step_ev envBase stTwoPeers
            (Ev.tick 100 (fun i => 100 + i))).1.message_acks p
          = some (AckEntry.mk t AckStatus.pending)) ∧
      (∀ now2 clk2,
        now2 < (fun i => 100 + i) stTwoPeers.selected_nodes.length
            + stTwoPeers.auto_send_interval →
        step_ev envBase (step_ev envBase stTwoPeers
            (Ev.tick 100 (fun i => 100 + i))).1 (Ev.tick now2 clk2)
          = ((step_ev envBase stTwoPeers (Ev.tick 100 (fun i => 100 + i))).1, 0, 0))) := by
  refine ⟨by decide, by decide, by decide, by decide, ?_⟩
  exact telemetry_batch_pending_and_completion envBase stTwoPeers 100 (fun i => 100 + i)
    (by decide) (by decide) (by decide) (by decide)

/-- Counterexample to claim C6 as stated.  From an in-range interval of 60,
the interactive interval menu accepts the entry "4000": it only checks
`interval >= 30` (`mesh_terminal.py` line 1864) and stores 4000, violating
the claimed upper bound 3600. -/
theorem menu_interval_accepts_above_upper_bound :
    30 ≤ stBase.auto_send_interval ∧ stBase.auto_send_interval ≤ 3600 ∧
    (configure_interval stBase ['4', '0', '0', '0']).auto_send_interval = 4000 ∧
    ¬ ((configure_interval stBase ['4', '0', '0', '0']).auto_send_interval ≤ 3600) := by
  decide

/-- Claim C6, amended.  The remote FREQ command preserves the invariant
`intervalSeconds ∈ [30, 3600]` (its branch is guarded by both bounds); the
local interactive interval configuration preserves only the lower bound 30 —
it performs no upper check, so values above 3600 pass through it. -/
theorem interval_bounds_freq_and_menu (env : Env) (st : TermState)
    (text f inp : List Char)
    (h1 : 30 ≤ st.auto_send_interval) (h2 : st.auto_send_interval ≤ 3600) :
    (30 ≤ (process_keyword_command env st text f).1.auto_send_interval ∧
      (process_keyword_command env st text f).1.auto_send_interval ≤ 3600) ∧
    30 ≤ (configure_interval st inp).auto_send_interval := by
  constructor
  · rw [pkc_fst]
    exact pkc_core_interval env st text f h1 h2
  · unfold configure_interval
    rcases pyInt inp with _ | n
    · exact h1
    · dsimp only
      split
      next hn => dsimp only; omega
      next => exact h1

/-- Witness for the amended C6 at concrete inputs: a FREQ5000 attempt and a
menu entry of 45 from the base state. -/
theorem interval_bounds_freq_and_menu_witness :
    30 ≤ stBase.auto_send_interval ∧ stBase.auto_send_interval ≤ 3600 ∧
    ((30 ≤ (process_keyword_command envBase stBase (kwFREQ ++ ['5', '0', '0', '0'])
          ['!', 'a']).1.auto_send_interval ∧
      (process_keyword_command envBase stBase (kwFREQ ++ ['5', '0', '0', '0'])
          ['!', 'a']).1.auto_send_interval ≤ 3600) ∧
    30 ≤ (configure_interval stBase ['4', '5']).auto_send_interval) := by
  refine ⟨by decide, by decide, ?_⟩
  exact interval_bounds_freq_and_menu envBase stBase (kwFREQ ++ ['5', '0', '0', '0'])
    ['!', 'a'] ['4', '5'] (by decide) (by decide)

/-- Counterexample to claim C9 as stated.  The code keeps no send sequence
numbers and rejects nothing: after the second send leaves peer `"!a"`
Pending (stamped 200), a further routing acknowledgment — which, routing
acks being uncorrelated, may belong to the *first* send — unconditionally
overwrites that Pending with Acknowledged.  No stale-update rejection
exists. -/
theorem stale_ack_overwrites_newer_pending :
    alistLookup c9_afterResend.message_acks ['!', 'a']
      = some (AckEntry.mk 200 AckStatus.pending) ∧
    alistLookup (handle_routing_response c9_afterResend ['!', 'a']
        "NONE".toList 250).message_acks ['!', 'a']
      = some (AckEntry.mk 250 AckStatus.ack) ∧
    AckStatus.ack ≠ AckStatus.pending := by
  decide

/-- Claim C9, amended.  Delivery-status updates carry no sequence numbers:
`handle_routing_response` is last-write-wins — any routing ACK/NAK from a
peer unconditionally overwrites that peer's latest status, whatever send it
belonged to (the §9 "most recent send wins" approximation). -/
theorem routing_response_last_write_wins (st : TermState) (f r : List Char) (now : Nat) :
    alistLookup (handle_routing_response st f r now).message_acks f
      = some (AckEntry.mk now
          (if r = "NONE".toList then AckStatus.ack else AckStatus.nak r)) := by
  unfold handle_routing_response
  exact alistLookup_insert_self _ _ _

/-- Counterexample to claim C10 as stated.  A CHATBOTON (the spec's
RESPONDERON) from a trusted peer runs the blocking `load_model()` inline in
the inbound handler's synchronous effect trace — before the greeting and the
reply are sent — and dispatches nothing to an independent worker: the trace
holds `loadModel` and no `spawnWorker`, so the handler does not return until
the load completes. -/
theorem chatboton_load_effect_trace :
    Effect.loadModel ∈ (process_keyword_command envBase stBotOff kwCHATBOTON ['!', 'a']).2 ∧
    Effect.spawnWorker ∉ (process_keyword_command envBase stBotOff kwCHATBOTON ['!', 'a']).2 ∧
    (process_keyword_command envBase stBotOff kwCHATBOTON ['!', 'a']).2
      = [Effect.loadModel, Effect.saveConfig, Effect.sendText ['!', 'a'] envBase.greeting,
        Effect.sendText ['!', 'a'] msgBotEnabled] := by
  decide

/-- Claim C10, amended.  Whenever CHATBOTON triggers a model load (chatbot
present, available, model on disk, not already enabled-and-loaded), the
blocking load runs inline in the handler's synchronous effect trace, and no
keyword command ever dispatches work to an independent worker — the inbound
handler is blocked for the duration of the load. -/
theorem chatboton_load_inline_no_worker (env : Env) (st : TermState) (f : List Char)
    (h1 : st.chatbot_present = true) (h2 : st.chatbot_available = true)
    (h3 : st.chatbot_model_exists = true)
    (h4 : ¬ (st.chatbot_enabled = true ∧ st.chatbot_loaded = true)) :
    Effect.loadModel ∈ (process_keyword_command env st kwCHATBOTON f).2 ∧
    ∀ text, Effect.spawnWorker ∉ (process_keyword_command env st text f).2 := by
  constructor
  · have hcls : classifyCmd kwCHATBOTON = Cmd.chatbotOn := by decide
    have hcore : Effect.loadModel ∈ (pkc_core env st kwCHATBOTON f).2.1 := by
      unfold pkc_core
      rw [hcls]
      simp only [pkc_branch]
      rw [if_neg (by simp [h1, h2]), if_neg (by simp [h3]), if_neg h4]
      split <;> simp
    unfold process_keyword_command
    rcases h : pkc_core env st kwCHATBOTON f with ⟨st', effs, rep⟩
    rw [h] at hcore
    cases rep with
    | none => simpa using hcore
    | some r =>
      simp only []
      split
      · simp only [List.mem_append]
        exact Or.inl hcore
      · exact hcore
  · intro text
    exact pkc_no_spawn env st text f

/-- Witness for the amended C10 at a concrete input: the chatbot-off base
state, where CHATBOTON's load is inline and spawn-free. -/
theorem chatboton_load_inline_no_worker_witness :
    stBotOff.chatbot_present = true ∧ stBotOff.chatbot_available = true ∧
    stBotOff.chatbot_model_exists = true ∧
    ¬ (stBotOff.chatbot_enabled = true ∧ stBotOff.chatbot_loaded = true) ∧
    (Effect.loadModel ∈ (process_keyword_command envBase stBotOff kwCHATBOTON ['!', 'b']).2 ∧
      ∀ text, Effect.spawnWorker ∉ (process_keyword_command envBase stBotOff text ['!', 'b']).2) := by
  refine ⟨by decide, by decide, by decide, by decide, ?_⟩
  exact chatboton_load_inline_no_worker envBase stBotOff ['!', 'b']
    (by decide) (by decide) (by decide) (by decide)
